import Mathlib

/-!
Shallow embedding of the `DailyCheckIn` Solidity contract
(`contracts/DailyCheckIn.sol`) and proofs about its specification.

Modelling conventions:
* Addresses are `Nat` (the zero address is `0`), wei amounts and timestamps
  are `Nat` (Solidity 0.8 `uint256` arithmetic on these quantities never
  wraps in reachable executions, and every addition in the source that could
  overflow would revert, which the gate conditions below subsume).
* The encrypted counter `euint32` is modelled by the plaintext `Nat` value
  it encrypts; `FHE.add` on `euint32` wraps modulo `2^32`, hence the
  explicit `% U32_MOD`.
* Each external function is a total function from the pre-state to
  `Except String (state × transfers)`: `.error msg` is a revert with that
  message (EVM reverts roll back all writes, so no partial state is
  carried), `.ok` carries the post-state and the list of
  `(recipient, amount)` ETH value transfers the call performed.
* A low-level `call{value: amount}` succeeds exactly when the contract
  balance covers `amount` and the recipient accepts the transfer; the
  latter is an environment choice modelled by a `Bool` parameter.
* `balance` models `address(this).balance`; for `payable` entry points the
  EVM credits `msg.value` before the body runs, so the success branch adds
  it (a revert also rolls the credit back).
-/

namespace DailyCheckIn

/-- `REWARD_AMOUNT = 0.0001 ether`, in wei. -/
def REWARD_AMOUNT : Nat := 100000000000000

/-- `CHECK_IN_INTERVAL = 24 hours`, in seconds. -/
def CHECK_IN_INTERVAL : Nat := 86400

/-- `REWARD_INTERVAL = 2`. -/
def REWARD_INTERVAL : Nat := 2

/-- Modulus of the `euint32` encrypted counter. -/
def U32_MOD : Nat := 4294967296

/-- The `UserCheckIn` struct: `encryptedDays` (plaintext of the encrypted
counter), `lastCheckInTime`, `lastClaimedDay`. -/
structure UserCheckIn where
  encryptedDays : Nat
  lastCheckInTime : Nat
  lastClaimedDay : Nat
deriving Repr, DecidableEq

/-- The persistent state of the contract: the `owner` slot, the
`userCheckIns` mapping, the `rewardPool` slot, plus the contract's ETH
balance `address(this).balance`. -/
structure ContractState where
  owner : Nat
  userCheckIns : Nat → UserCheckIn
  rewardPool : Nat
  balance : Nat

/-- An ETH value transfer performed by a call: `(recipient, amount)`. -/
abbrev Transfer := Nat × Nat

/-- Result of an external call: revert message, or post-state with the
value transfers performed. -/
abbrev TxResult := Except String (ContractState × List Transfer)

/-- Did the call succeed? -/
def isSuccess : TxResult → Bool
  | .ok _ => true
  | .error _ => false

/-- Post-state of a call, with a default for the revert case. -/
def okState (r : TxResult) (d : ContractState) : ContractState :=
  match r with
  | .ok (s, _) => s
  | .error _ => d

/-- `checkIn()`: gate on the 24-hour cooldown, reset the counter and
`lastClaimedDay` when more than 48 hours elapsed, then increment the
encrypted counter and stamp `lastCheckInTime`. -/
def checkIn (sender time : Nat) (s : ContractState) : TxResult :=
  let u := s.userCheckIns sender
  if u.lastCheckInTime + CHECK_IN_INTERVAL ≤ time then
    let u1 :=
      if u.lastCheckInTime + CHECK_IN_INTERVAL * 2 < time then
        { u with encryptedDays := 0, lastClaimedDay := 0 }
      else u
    let u2 := { u1 with encryptedDays := (u1.encryptedDays + 1) % U32_MOD,
                        lastCheckInTime := time }
    .ok ({ s with
            userCheckIns := fun a => if a = sender then u2 else s.userCheckIns a },
         [])
  else
    .error "Already checked in today"

/-- `resetCheckIn()`: zero all three fields of the caller's struct. -/
def resetCheckIn (sender : Nat) (s : ContractState) : TxResult :=
  .ok ({ s with
          userCheckIns := fun a =>
            if a = sender then
              { encryptedDays := 0, lastCheckInTime := 0, lastClaimedDay := 0 }
            else s.userCheckIns a },
       [])

/-- `claimReward(currentDay)`: three `require` guards (odd day, not yet
claimed, pool sufficient), then record the claimed day, deduct the pool and
send `REWARD_AMOUNT` to the caller. -/
def claimReward (sender currentDay : Nat) (recipientAccepts : Bool)
    (s : ContractState) : TxResult :=
  let u := s.userCheckIns sender
  if currentDay % REWARD_INTERVAL = 1 then
    if u.lastClaimedDay < currentDay then
      if REWARD_AMOUNT ≤ s.rewardPool then
        if REWARD_AMOUNT ≤ s.balance ∧ recipientAccepts = true then
          .ok ({ s with
                  userCheckIns := fun a =>
                    if a = sender then { u with lastClaimedDay := currentDay }
                    else s.userCheckIns a,
                  rewardPool := s.rewardPool - REWARD_AMOUNT,
                  balance := s.balance - REWARD_AMOUNT },
               [(sender, REWARD_AMOUNT)])
        else .error "Reward transfer failed"
      else .error "Insufficient reward pool"
    else .error "Reward already claimed for this milestone"
  else .error "Not eligible for reward"

/-- `depositRewardPool()` (payable): require a positive deposit, credit the
pool (the EVM credit of `msg.value` to the balance is part of success). -/
def depositRewardPool (sender value : Nat) (s : ContractState) : TxResult :=
  if 0 < value then
    .ok ({ s with rewardPool := s.rewardPool + value,
                  balance := s.balance + value }, [])
  else .error "Deposit amount must be greater than 0"

/-- `withdrawRewardPool(amount)` (onlyOwner): deduct from the pool and send
`amount` to the owner. -/
def withdrawRewardPool (sender amount : Nat) (recipientAccepts : Bool)
    (s : ContractState) : TxResult :=
  if sender = s.owner then
    if amount ≤ s.rewardPool then
      if amount ≤ s.balance ∧ recipientAccepts = true then
        .ok ({ s with rewardPool := s.rewardPool - amount,
                      balance := s.balance - amount },
             [(s.owner, amount)])
      else .error "Withdrawal failed"
    else .error "Insufficient balance in reward pool"
  else .error "Only owner can call this"

/-- `emergencyWithdraw()` (onlyOwner): zero the pool and send the whole
contract balance to the owner. -/
def emergencyWithdraw (sender : Nat) (recipientAccepts : Bool)
    (s : ContractState) : TxResult :=
  if sender = s.owner then
    if recipientAccepts = true then
      .ok ({ s with rewardPool := 0, balance := 0 }, [(s.owner, s.balance)])
    else .error "Emergency withdrawal failed"
  else .error "Only owner can call this"

/-- `transferOwnership(newOwner)` (onlyOwner): require a non-zero address,
then overwrite the `owner` slot. -/
def transferOwnership (sender newOwner : Nat) (s : ContractState) : TxResult :=
  if sender = s.owner then
    if newOwner = 0 then .error "Invalid new owner address"
    else .ok ({ s with owner := newOwner }, [])
  else .error "Only owner can call this"

/-- `receive()` (payable): credit `msg.value` to the pool. -/
def receiveEth (sender value : Nat) (s : ContractState) : TxResult :=
  .ok ({ s with rewardPool := s.rewardPool + value,
                balance := s.balance + value }, [])

/-- `fallback()` (payable): credit `msg.value` to the pool. -/
def fallbackEth (sender value : Nat) (s : ContractState) : TxResult :=
  .ok ({ s with rewardPool := s.rewardPool + value,
                balance := s.balance + value }, [])

/-- One external call to the contract: the seven named entry points plus
the `receive` and `fallback` handlers. -/
inductive Call where
  | checkIn (sender time : Nat)
  | resetCheckIn (sender : Nat)
  | claimReward (sender currentDay : Nat) (recipientAccepts : Bool)
  | depositRewardPool (sender value : Nat)
  | withdrawRewardPool (sender amount : Nat) (recipientAccepts : Bool)
  | emergencyWithdraw (sender : Nat) (recipientAccepts : Bool)
  | transferOwnership (sender newOwner : Nat)
  | receiveEth (sender value : Nat)
  | fallbackEth (sender value : Nat)
deriving Repr, DecidableEq

/-- Dispatch one external call. -/
def applyCall : Call → ContractState → TxResult
  | .checkIn sender time, s => checkIn sender time s
  | .resetCheckIn sender, s => resetCheckIn sender s
  | .claimReward sender day acc, s => claimReward sender day acc s
  | .depositRewardPool sender v, s => depositRewardPool sender v s
  | .withdrawRewardPool sender amount acc, s => withdrawRewardPool sender amount acc s
  | .emergencyWithdraw sender acc, s => emergencyWithdraw sender acc s
  | .transferOwnership sender nw, s => transferOwnership sender nw s
  | .receiveEth sender v, s => receiveEth sender v s
  | .fallbackEth sender v, s => fallbackEth sender v s

/-- EVM transaction semantics of a call: on success the new state, on
revert the pre-state together with the revert message. -/
def applyTx (c : Call) (s : ContractState) : ContractState × Option String :=
  match applyCall c s with
  | .ok (s', _) => (s', none)
  | .error e => (s, some e)

/-- The `constructor()` (payable): deployer becomes owner, `msg.value`
funds the pool, mapping starts empty (all-zero structs). -/
def initState (deployer value : Nat) : ContractState :=
  { owner := deployer
    userCheckIns := fun _ => { encryptedDays := 0, lastCheckInTime := 0, lastClaimedDay := 0 }
    rewardPool := value
    balance := value }

/-- States reachable from a deployment by successful external calls. -/
inductive Reachable : ContractState → Prop where
  | init (deployer value : Nat) : Reachable (initState deployer value)
  | step (c : Call) (s s' : ContractState) (t : List Transfer) :
      Reachable s → applyCall c s = .ok (s', t) → Reachable s'

/-- Is the call one of the seven named public entry points (as opposed to
the `receive`/`fallback` handlers)? -/
def isSevenEntryPoint : Call → Bool
  | .checkIn _ _ => true
  | .resetCheckIn _ => true
  | .claimReward _ _ _ => true
  | .depositRewardPool _ _ => true
  | .withdrawRewardPool _ _ _ => true
  | .emergencyWithdraw _ _ => true
  | .transferOwnership _ _ => true
  | .receiveEth _ _ => false
  | .fallbackEth _ _ => false

/-- A deployed demo state: deployer address `0`, initial pool three times
the reward amount. -/
def s0 : ContractState := initState 0 300000000000000

/-- A demo state where user `1` has an established streak: counter `5`,
last check-in at time `1000`, day `3` already claimed. -/
def s2 : ContractState :=
  { owner := 0
    userCheckIns := fun a =>
      if a = 1 then { encryptedDays := 5, lastCheckInTime := 1000, lastClaimedDay := 3 }
      else { encryptedDays := 0, lastCheckInTime := 0, lastClaimedDay := 0 }
    rewardPool := 300000000000000
    balance := 300000000000000 }

/-- A demo state identical to `s2` except that user 1's encrypted counter
is 0 instead of 5. -/
def s2e : ContractState :=
  { owner := 0
    userCheckIns := fun a =>
      if a = 1 then { encryptedDays := 0, lastCheckInTime := 1000, lastClaimedDay := 3 }
      else { encryptedDays := 0, lastCheckInTime := 0, lastClaimedDay := 0 }
    rewardPool := 300000000000000
    balance := 300000000000000 }

/-- The observable outcome of `claimReward`: whether it succeeds, the
value transfers it performs, and the resulting `rewardPool`. -/
def claimOutcome (sender currentDay : Nat) (recipientAccepts : Bool)
    (s : ContractState) : Bool × List Transfer × Nat :=
  match claimReward sender currentDay recipientAccepts s with
  | .ok (s', t) => (true, t, s'.rewardPool)
  | .error _ => (false, [], s.rewardPool)

/-- Formalisation of the C4 claim as stated: there are two contract states
that differ only in the caller's `encryptedDays` on which `claimReward`,
with the same argument, has a different observable outcome. -/
def claimOutcomeDependsOnEncryptedDays : Prop :=
  ∃ (s s' : ContractState) (sender day : Nat) (acc : Bool),
    s'.owner = s.owner ∧ s'.rewardPool = s.rewardPool ∧ s'.balance = s.balance ∧
    (∀ a, (s'.userCheckIns a).lastCheckInTime = (s.userCheckIns a).lastCheckInTime) ∧
    (∀ a, (s'.userCheckIns a).lastClaimedDay = (s.userCheckIns a).lastClaimedDay) ∧
    (∀ a, a ≠ sender → (s'.userCheckIns a).encryptedDays = (s.userCheckIns a).encryptedDays) ∧
    claimOutcome sender day acc s' ≠ claimOutcome sender day acc s

/-- Formalisation of the C6 claim as stated: every successful call that
changes the contract state is one of the seven named entry points. -/
def onlySevenEntryPointsChangeState : Prop :=
  ∀ (c : Call) (s s' : ContractState) (t : List Transfer),
    applyCall c s = .ok (s', t) → s' ≠ s → isSevenEntryPoint c = true

/-- C1: `checkIn` succeeds iff at least 24 hours (`CHECK_IN_INTERVAL`) have
elapsed since the caller's stored `lastCheckInTime` (0 for a user who has
never checked in, so a first check-in passes the gate at any timestamp at
least 24 hours past the epoch); otherwise it reverts with
"Already checked in today". -/
theorem checkIn_cooldown_gate (sender time : Nat) (s : ContractState) :
    (isSuccess (checkIn sender time s) = true ↔
      (s.userCheckIns sender).lastCheckInTime + CHECK_IN_INTERVAL ≤ time) ∧
    (time < (s.userCheckIns sender).lastCheckInTime + CHECK_IN_INTERVAL →
      checkIn sender time s = .error "Already checked in today") ∧
    ((s.userCheckIns sender).lastCheckInTime = 0 → CHECK_IN_INTERVAL ≤ time →
      isSuccess (checkIn sender time s) = true) := by
  by_cases h : (s.userCheckIns sender).lastCheckInTime + CHECK_IN_INTERVAL ≤ time
  · refine ⟨?_, ?_, ?_⟩
    · simp [checkIn, h, isSuccess]
    · intro hlt; exact absurd h (by omega)
    · intro _ _; simp [checkIn, h, isSuccess]
  · refine ⟨?_, ?_, ?_⟩
    · simp [checkIn, h, isSuccess]
    · intro _; simp [checkIn, h]
    · intro h0 hI
      exact absurd (show (s.userCheckIns sender).lastCheckInTime + CHECK_IN_INTERVAL ≤ time by omega) h

/-- C1 witness: a fresh user checks in successfully at timestamp 86400. -/
theorem checkIn_cooldown_gate_witness :
    isSuccess (checkIn 1 86400 s0) = true :=
  (checkIn_cooldown_gate 1 86400 s0).2.2 (by decide) (by decide)

/-- C9: if `checkIn` is called more than 48 hours
(`CHECK_IN_INTERVAL * 2`) after the caller's `lastCheckInTime`, the
counter and `lastClaimedDay` are reset before the increment, so the call
succeeds leaving `encryptedDays = 1` and `lastClaimedDay = 0`; between 24
and 48 hours neither field is reset. -/
theorem checkIn_continuity_reset (sender time : Nat) (s : ContractState) :
    ((s.userCheckIns sender).lastCheckInTime + CHECK_IN_INTERVAL * 2 < time →
      isSuccess (checkIn sender time s) = true ∧
      ((okState (checkIn sender time s) s).userCheckIns sender).encryptedDays = 1 ∧
      ((okState (checkIn sender time s) s).userCheckIns sender).lastClaimedDay = 0) ∧
    ((s.userCheckIns sender).lastCheckInTime + CHECK_IN_INTERVAL ≤ time →
      time ≤ (s.userCheckIns sender).lastCheckInTime + CHECK_IN_INTERVAL * 2 →
      ((okState (checkIn sender time s) s).userCheckIns sender).encryptedDays =
        ((s.userCheckIns sender).encryptedDays + 1) % U32_MOD ∧
      ((okState (checkIn sender time s) s).userCheckIns sender).lastClaimedDay =
        (s.userCheckIns sender).lastClaimedDay) := by
  constructor
  · intro h
    have hg : (s.userCheckIns sender).lastCheckInTime + CHECK_IN_INTERVAL ≤ time := by omega
    simp [checkIn, okState, isSuccess, hg, h, U32_MOD]
  · intro hg h2
    have hnr : ¬ ((s.userCheckIns sender).lastCheckInTime + CHECK_IN_INTERVAL * 2 < time) := by omega
    simp [checkIn, okState, isSuccess, hg, hnr]

/-- C9 witness: user 1 of `s2` (last check-in at 1000) checking in at
173801 > 1000 + 48h ends with counter 1 and `lastClaimedDay` 0. -/
theorem checkIn_continuity_reset_witness :
    isSuccess (checkIn 1 173801 s2) = true ∧
    ((okState (checkIn 1 173801 s2) s2).userCheckIns 1).encryptedDays = 1 ∧
    ((okState (checkIn 1 173801 s2) s2).userCheckIns 1).lastClaimedDay = 0 :=
  (checkIn_continuity_reset 1 173801 s2).1 (by decide)

/-- C2 counterexample: user 1 of `s2` has counter 5, but checking in more
than 48 hours after their last check-in succeeds and leaves the counter at
1, not 6 — the counter is not incremented relative to its value when the
transaction began. -/
theorem checkIn_plain_increment_false :
    isSuccess (checkIn 1 173801 s2) = true ∧
    ((okState (checkIn 1 173801 s2) s2).userCheckIns 1).lastCheckInTime = 173801 ∧
    (s2.userCheckIns 1).encryptedDays = 5 ∧
    ((okState (checkIn 1 173801 s2) s2).userCheckIns 1).encryptedDays ≠
      (s2.userCheckIns 1).encryptedDays + 1 := by
  decide

/-- C2 amended: every successful `checkIn` sets the caller's
`lastCheckInTime` to the current timestamp; the counter is incremented by
one modulo `2^32` relative to its value when the transaction began when at
most 48 hours elapsed since `lastCheckInTime`, and is set to 1 (reset, then
incremented) when more than 48 hours elapsed. -/
theorem checkIn_counter_update (sender time : Nat) (s : ContractState)
    (h : isSuccess (checkIn sender time s) = true) :
    ((okState (checkIn sender time s) s).userCheckIns sender).lastCheckInTime = time ∧
    (time ≤ (s.userCheckIns sender).lastCheckInTime + CHECK_IN_INTERVAL * 2 →
      ((okState (checkIn sender time s) s).userCheckIns sender).encryptedDays =
        ((s.userCheckIns sender).encryptedDays + 1) % U32_MOD) ∧
    ((s.userCheckIns sender).lastCheckInTime + CHECK_IN_INTERVAL * 2 < time →
      ((okState (checkIn sender time s) s).userCheckIns sender).encryptedDays = 1) := by
  have hg : (s.userCheckIns sender).lastCheckInTime + CHECK_IN_INTERVAL ≤ time := by
    by_contra hn
    simp [checkIn, isSuccess, hn] at h
  refine ⟨?_, ?_, ?_⟩
  · by_cases hr : (s.userCheckIns sender).lastCheckInTime + CHECK_IN_INTERVAL * 2 < time <;>
      simp [checkIn, okState, hg, hr]
  · intro h2
    have hnr : ¬ ((s.userCheckIns sender).lastCheckInTime + CHECK_IN_INTERVAL * 2 < time) := by omega
    simp [checkIn, okState, hg, hnr]
  · intro hr
    simp [checkIn, okState, hg, hr, U32_MOD]

/-- C2 witness: a fresh user of `s0` checking in at 86400 succeeds with the
timestamp recorded. -/
theorem checkIn_counter_update_witness :
    ((okState (checkIn 1 86400 s0) s0).userCheckIns 1).lastCheckInTime = 86400 :=
  (checkIn_counter_update 1 86400 s0 (by decide)).1

/-- A successful `claimReward` implies all three `require` guards held. -/
theorem claimReward_isSuccess_imp (sender day : Nat) (acc : Bool) (s : ContractState)
    (h : isSuccess (claimReward sender day acc s) = true) :
    day % REWARD_INTERVAL = 1 ∧ (s.userCheckIns sender).lastClaimedDay < day ∧
    REWARD_AMOUNT ≤ s.rewardPool := by
  by_cases h1 : day % REWARD_INTERVAL = 1
  · by_cases h2 : (s.userCheckIns sender).lastClaimedDay < day
    · by_cases h3 : REWARD_AMOUNT ≤ s.rewardPool
      · exact ⟨h1, h2, h3⟩
      · simp [claimReward, isSuccess, h1, h2, h3] at h
    · simp [claimReward, isSuccess, h1, h2] at h
  · simp [claimReward, isSuccess, h1] at h

/-- C3: every successful `claimReward` deducts exactly `REWARD_AMOUNT`
from a sufficient `rewardPool` and transfers that same amount to the
caller; it reverts whenever `rewardPool < REWARD_AMOUNT`, whenever
`currentDay` is not odd, or whenever `currentDay` is at most the caller's
`lastClaimedDay` (a revert leaves all state, `rewardPool` included,
untouched — see the transaction semantics theorem). -/
theorem claimReward_accounting (sender day : Nat) (acc : Bool) (s : ContractState) :
    (∀ s' t, claimReward sender day acc s = .ok (s', t) →
      REWARD_AMOUNT ≤ s.rewardPool ∧
      s'.rewardPool = s.rewardPool - REWARD_AMOUNT ∧
      s'.balance = s.balance - REWARD_AMOUNT ∧
      t = [(sender, REWARD_AMOUNT)]) ∧
    (s.rewardPool < REWARD_AMOUNT → isSuccess (claimReward sender day acc s) = false) ∧
    (day % 2 ≠ 1 → isSuccess (claimReward sender day acc s) = false) ∧
    (day ≤ (s.userCheckIns sender).lastClaimedDay →
      isSuccess (claimReward sender day acc s) = false) := by
  refine ⟨?_, ?_, ?_, ?_⟩
  · intro s' t h
    obtain ⟨h1, h2, h3⟩ :=
      claimReward_isSuccess_imp sender day acc s (by rw [h]; rfl)
    by_cases h4 : REWARD_AMOUNT ≤ s.balance ∧ acc = true
    · simp [claimReward, h1, h2, h3, h4] at h
      obtain ⟨hs, ht⟩ := h
      subst hs; subst ht
      exact ⟨h3, rfl, rfl, rfl⟩
    · simp [claimReward, h1, h2, h3, h4] at h
  · intro hlt
    cases hsb : isSuccess (claimReward sender day acc s) with
    | false => rfl
    | true =>
        have := (claimReward_isSuccess_imp sender day acc s hsb).2.2
        omega
  · intro hodd
    cases hsb : isSuccess (claimReward sender day acc s) with
    | false => rfl
    | true =>
        exact absurd (claimReward_isSuccess_imp sender day acc s hsb).1 hodd
  · intro hle
    cases hsb : isSuccess (claimReward sender day acc s) with
    | false => rfl
    | true =>
        have := (claimReward_isSuccess_imp sender day acc s hsb).2.1
        omega

/-- C3 witness: user 1 of `s2` claims day 5 successfully; the pool drops by
exactly `REWARD_AMOUNT`. -/
theorem claimReward_accounting_witness :
    (okState (claimReward 1 5 true s2) s2).rewardPool = 200000000000000 := by
  have h := (claimReward_accounting 1 5 true s2).1
    (okState (claimReward 1 5 true s2) s2) [(1, REWARD_AMOUNT)] rfl
  have h2 := h.2.1
  rw [h2]
  decide

/-- Helper: the outcome of `claimReward` is determined by the caller's
`lastClaimedDay`, the `rewardPool` and the contract balance alone. -/
theorem claimOutcome_local_determined (sender day : Nat) (acc : Bool)
    (s s' : ContractState)
    (hday : (s'.userCheckIns sender).lastClaimedDay = (s.userCheckIns sender).lastClaimedDay)
    (hpool : s'.rewardPool = s.rewardPool) (hbal : s'.balance = s.balance) :
    claimOutcome sender day acc s' = claimOutcome sender day acc s := by
  by_cases h1 : day % REWARD_INTERVAL = 1
  · by_cases h2 : (s.userCheckIns sender).lastClaimedDay < day
    · have h2' : (s'.userCheckIns sender).lastClaimedDay < day := by rw [hday]; exact h2
      by_cases h3 : REWARD_AMOUNT ≤ s.rewardPool
      · have h3' : REWARD_AMOUNT ≤ s'.rewardPool := by rw [hpool]; exact h3
        by_cases h4 : REWARD_AMOUNT ≤ s.balance
        · have h4' : REWARD_AMOUNT ≤ s'.balance := by rw [hbal]; exact h4
          cases acc with
          | true => simp [claimOutcome, claimReward, h1, h2, h2', h3, h3', h4, h4', hpool]
          | false => simp [claimOutcome, claimReward, h1, h2, h2', h3, h3', h4, h4', hpool]
        · have h4' : ¬ (REWARD_AMOUNT ≤ s'.balance) := by rw [hbal]; exact h4
          simp [claimOutcome, claimReward, h1, h2, h2', h3, h3', h4, h4', hpool]
      · have h3' : ¬ (REWARD_AMOUNT ≤ s'.rewardPool) := by rw [hpool]; exact h3
        simp [claimOutcome, claimReward, h1, h2, h2', h3, h3', hpool]
    · have h2' : ¬ ((s'.userCheckIns sender).lastClaimedDay < day) := by rw [hday]; exact h2
      simp [claimOutcome, claimReward, h1, h2, h2', hpool]
  · simp [claimOutcome, claimReward, h1, hpool]

/-- C4 amended: the observable outcome of `claimReward` is entirely
determined by the caller's `lastClaimedDay`, the `rewardPool` and the
contract balance — it never reads `encryptedDays`, because the contract
trusts the caller-supplied plaintext `currentDay` instead of verifying it
against the encrypted counter. -/
theorem claimReward_independent_of_encryptedDays (sender day : Nat) (acc : Bool)
    (s s' : ContractState)
    (hday : (s'.userCheckIns sender).lastClaimedDay = (s.userCheckIns sender).lastClaimedDay)
    (hpool : s'.rewardPool = s.rewardPool) (hbal : s'.balance = s.balance) :
    claimOutcome sender day acc s' = claimOutcome sender day acc s :=
  claimOutcome_local_determined sender day acc s s' hday hpool hbal

/-- C4 counterexample: the claim is false — `claimReward` has the same
observable outcome on any two states differing only in the caller's
`encryptedDays`; claim verification is not delegated to the FHEVM. -/
theorem claimReward_reads_no_encryptedDays : ¬ claimOutcomeDependsOnEncryptedDays := by
  rintro ⟨s, s', sender, day, acc, _, hpool, hbal, _, hday, _, hne⟩
  exact hne (claimOutcome_local_determined sender day acc s s'
    (hday sender) hpool hbal)

/-- C4 witness: two concrete states differing only in user 1's counter
(5 in `s2`, 0 in `s2e`) give identical `claimReward` outcomes. -/
theorem claimReward_independent_witness :
    claimOutcome 1 5 true s2e = claimOutcome 1 5 true s2 :=
  claimReward_independent_of_encryptedDays 1 5 true s2 s2e rfl rfl rfl

/-- C5 counterexample: `owner` is itself persistent contract storage, and
the `transferOwnership` entry point modifies it — the persistent state is
not limited to the per-address structs and `rewardPool`. -/
theorem owner_slot_is_modified :
    isSuccess (applyCall (.transferOwnership 0 7) s0) = true ∧
    (okState (applyCall (.transferOwnership 0 7) s0) s0).owner ≠ s0.owner := by
  decide

/-- C5 amended: the persistent state consists of the per-address structs,
`rewardPool`, and the `owner` slot; every entry point other than
`transferOwnership` leaves `owner` unchanged, and `transferOwnership`
changes nothing except `owner`. -/
theorem storage_frame (c : Call) (s s' : ContractState) (t : List Transfer)
    (h : applyCall c s = .ok (s', t)) :
    ((∀ sndr nw, c ≠ Call.transferOwnership sndr nw) → s'.owner = s.owner) ∧
    (∀ sndr nw, c = Call.transferOwnership sndr nw →
      s'.userCheckIns = s.userCheckIns ∧ s'.rewardPool = s.rewardPool ∧
      s'.balance = s.balance) := by
  cases c with
  | checkIn sender time =>
      refine ⟨fun _ => ?_, fun sndr nw hc => by cases hc⟩
      simp only [applyCall] at h
      simp only [checkIn] at h
      split at h
      · injection h with h'
        injection h' with hs ht
        subst hs
        rfl
      · cases h
  | resetCheckIn sender =>
      refine ⟨fun _ => ?_, fun sndr nw hc => by cases hc⟩
      simp only [applyCall] at h
      simp only [resetCheckIn] at h
      injection h with h'
      injection h' with hs ht
      subst hs
      rfl
  | claimReward sender day acc =>
      refine ⟨fun _ => ?_, fun sndr nw hc => by cases hc⟩
      simp only [applyCall] at h
      simp only [claimReward] at h
      split at h
      · split at h
        · split at h
          · split at h
            · injection h with h'
              injection h' with hs ht
              subst hs
              rfl
            · cases h
          · cases h
        · cases h
      · cases h
  | depositRewardPool sender v =>
      refine ⟨fun _ => ?_, fun sndr nw hc => by cases hc⟩
      simp only [applyCall] at h
      simp only [depositRewardPool] at h
      split at h
      · injection h with h'
        injection h' with hs ht
        subst hs
        rfl
      · cases h
  | withdrawRewardPool sender amount acc =>
      refine ⟨fun _ => ?_, fun sndr nw hc => by cases hc⟩
      simp only [applyCall] at h
      simp only [withdrawRewardPool] at h
      split at h
      · split at h
        · split at h
          · injection h with h'
            injection h' with hs ht
            subst hs
            rfl
          · cases h
        · cases h
      · cases h
  | emergencyWithdraw sender acc =>
      refine ⟨fun _ => ?_, fun sndr nw hc => by cases hc⟩
      simp only [applyCall] at h
      simp only [emergencyWithdraw] at h
      split at h
      · split at h
        · injection h with h'
          injection h' with hs ht
          subst hs
          rfl
        · cases h
      · cases h
  | transferOwnership sender nw =>
      refine ⟨fun hne => absurd rfl (hne sender nw), fun sndr nw' hc => ?_⟩
      simp only [applyCall] at h
      simp only [transferOwnership] at h
      split at h
      · split at h
        · cases h
        · injection h with h'
          injection h' with hs ht
          subst hs
          exact ⟨rfl, rfl, rfl⟩
      · cases h
  | receiveEth sender v =>
      refine ⟨fun _ => ?_, fun sndr nw hc => by cases hc⟩
      simp only [applyCall] at h
      simp only [receiveEth] at h
      injection h with h'
      injection h' with hs ht
      subst hs
      rfl
  | fallbackEth sender v =>
      refine ⟨fun _ => ?_, fun sndr nw hc => by cases hc⟩
      simp only [applyCall] at h
      simp only [fallbackEth] at h
      injection h with h'
      injection h' with hs ht
      subst hs
      rfl

/-- C5 witness: a deposit leaves the `owner` slot untouched. -/
theorem storage_frame_witness :
    (okState (applyCall (Call.depositRewardPool 2 7) s0) s0).owner = s0.owner :=
  (storage_frame (Call.depositRewardPool 2 7) s0
      (okState (applyCall (Call.depositRewardPool 2 7) s0) s0) [] rfl).1
    (fun sndr nw hc => by cases hc)

/-- C6 counterexample: the `receive` handler is not one of the seven named
entry points, yet a plain ETH transfer through it changes the contract
state (it adds `msg.value` to `rewardPool`). -/
theorem receive_changes_state : ¬ onlySevenEntryPointsChangeState := by
  intro hall
  have hne : okState (applyCall (Call.receiveEth 3 5) s0) s0 ≠ s0 := by
    intro he
    have := congrArg ContractState.rewardPool he
    simp [applyCall, receiveEth, okState, s0, initState] at this
  have h7 := hall (Call.receiveEth 3 5) s0
    (okState (applyCall (Call.receiveEth 3 5) s0) s0) [] rfl hne
  simp [isSevenEntryPoint] at h7

/-- C6 amended: the external surface consists of the seven named entry
points together with the payable `receive` and `fallback` handlers; the
handlers' only effect is to credit `msg.value` to `rewardPool` (and the
contract balance). -/
theorem external_surface (c : Call) (s : ContractState) :
    (isSevenEntryPoint c = true ∨
      (∃ sndr v, c = Call.receiveEth sndr v ∨ c = Call.fallbackEth sndr v)) ∧
    (∀ sndr v, c = Call.receiveEth sndr v ∨ c = Call.fallbackEth sndr v →
      applyCall c s =
        .ok ({ s with rewardPool := s.rewardPool + v, balance := s.balance + v }, [])) := by
  cases c with
  | receiveEth sndr v =>
      refine ⟨Or.inr ⟨sndr, v, Or.inl rfl⟩, ?_⟩
      rintro sndr' v' (hc | hc) <;> cases hc <;> rfl
  | fallbackEth sndr v =>
      refine ⟨Or.inr ⟨sndr, v, Or.inr rfl⟩, ?_⟩
      rintro sndr' v' (hc | hc) <;> cases hc <;> rfl
  | checkIn sender time =>
      exact ⟨Or.inl rfl, fun sndr v hc => by rcases hc with hc | hc <;> cases hc⟩
  | resetCheckIn sender =>
      exact ⟨Or.inl rfl, fun sndr v hc => by rcases hc with hc | hc <;> cases hc⟩
  | claimReward sender day acc =>
      exact ⟨Or.inl rfl, fun sndr v hc => by rcases hc with hc | hc <;> cases hc⟩
  | depositRewardPool sender v =>
      exact ⟨Or.inl rfl, fun sndr v hc => by rcases hc with hc | hc <;> cases hc⟩
  | withdrawRewardPool sender amount acc =>
      exact ⟨Or.inl rfl, fun sndr v hc => by rcases hc with hc | hc <;> cases hc⟩
  | emergencyWithdraw sender acc =>
      exact ⟨Or.inl rfl, fun sndr v hc => by rcases hc with hc | hc <;> cases hc⟩
  | transferOwnership sender nw =>
      exact ⟨Or.inl rfl, fun sndr v hc => by rcases hc with hc | hc <;> cases hc⟩

/-- C6 witness: the `receive` handler credits 5 wei to the pool of `s0`. -/
theorem external_surface_witness :
    applyCall (Call.receiveEth 3 5) s0 =
      .ok ({ s0 with rewardPool := s0.rewardPool + 5, balance := s0.balance + 5 }, []) :=
  (external_surface (Call.receiveEth 3 5) s0).2 3 5 (Or.inl rfl)

/-- C7: every entry point is a total function of the pre-state that either
completes fully or reverts, and a reverted transaction leaves the contract
state exactly as it was — the `require`-style guards roll back every
write. -/
theorem revert_rolls_back (c : Call) (s : ContractState) (e : String)
    (h : (applyTx c s).2 = some e) : (applyTx c s).1 = s := by
  unfold applyTx at *
  cases hc : applyCall c s with
  | ok v => rw [hc] at h; simp at h
  | error err => rfl

/-- C7 witness: a premature second check-in reverts and leaves the state
of `s2` unchanged. -/
theorem revert_rolls_back_witness :
    (applyTx (Call.checkIn 1 2000) s2).2 = some "Already checked in today" ∧
    (applyTx (Call.checkIn 1 2000) s2).1 = s2 :=
  ⟨rfl, revert_rolls_back (Call.checkIn 1 2000) s2 "Already checked in today" rfl⟩

/-- C8: `withdrawRewardPool`, `emergencyWithdraw` and `transferOwnership`
revert with "Only owner can call this" for every caller other than the
current owner (a revert leaves all state unchanged — see the transaction
semantics theorem), and `transferOwnership` called by the owner with a
non-zero address sets `owner` to that address. -/
theorem onlyOwner_enforced (sender nw amount : Nat) (acc : Bool) (s : ContractState) :
    (sender ≠ s.owner →
      applyCall (Call.withdrawRewardPool sender amount acc) s = .error "Only owner can call this" ∧
      applyCall (Call.emergencyWithdraw sender acc) s = .error "Only owner can call this" ∧
      applyCall (Call.transferOwnership sender nw) s = .error "Only owner can call this") ∧
    (nw ≠ 0 →
      applyCall (Call.transferOwnership s.owner nw) s = .ok ({ s with owner := nw }, [])) := by
  constructor
  · intro hne
    refine ⟨?_, ?_, ?_⟩ <;>
      simp [applyCall, withdrawRewardPool, emergencyWithdraw, transferOwnership, hne]
  · intro h0
    simp [applyCall, transferOwnership, h0]

/-- C8 witness: a non-owner (address 5) cannot transfer ownership of `s0`,
and the owner (address 0) can hand it to address 7. -/
theorem onlyOwner_enforced_witness :
    applyCall (Call.transferOwnership 5 7) s0 = .error "Only owner can call this" :=
  ((onlyOwner_enforced 5 7 0 true s0).1 (by decide)).2.2

/-- Every successful call preserves the solvency invariant
`rewardPool ≤ balance`. -/
theorem applyCall_preserves_solvency (c : Call) (s s' : ContractState)
    (t : List Transfer) (h : applyCall c s = .ok (s', t))
    (hs : s.rewardPool ≤ s.balance) : s'.rewardPool ≤ s'.balance := by
  cases c with
  | checkIn sender time =>
      simp only [applyCall] at h
      simp only [checkIn] at h
      split at h
      · injection h with h'
        injection h' with h1 h2
        subst h1
        exact hs
      · cases h
  | resetCheckIn sender =>
      simp only [applyCall] at h
      simp only [resetCheckIn] at h
      injection h with h'
      injection h' with h1 h2
      subst h1
      exact hs
  | claimReward sender day acc =>
      simp only [applyCall] at h
      simp only [claimReward] at h
      split at h
      · split at h
        · split at h
          · split at h
            · injection h with h'
              injection h' with h1 h2
              subst h1
              exact Nat.sub_le_sub_right hs REWARD_AMOUNT
            · cases h
          · cases h
        · cases h
      · cases h
  | depositRewardPool sender v =>
      simp only [applyCall] at h
      simp only [depositRewardPool] at h
      split at h
      · injection h with h'
        injection h' with h1 h2
        subst h1
        exact Nat.add_le_add_right hs v
      · cases h
  | withdrawRewardPool sender amount acc =>
      simp only [applyCall] at h
      simp only [withdrawRewardPool] at h
      split at h
      · split at h
        · split at h
          · injection h with h'
            injection h' with h1 h2
            subst h1
            exact Nat.sub_le_sub_right hs amount
          · cases h
        · cases h
      · cases h
  | emergencyWithdraw sender acc =>
      simp only [applyCall] at h
      simp only [emergencyWithdraw] at h
      split at h
      · split at h
        · injection h with h'
          injection h' with h1 h2
          subst h1
          exact Nat.le_refl 0
        · cases h
      · cases h
  | transferOwnership sender nw =>
      simp only [applyCall] at h
      simp only [transferOwnership] at h
      split at h
      · split at h
        · cases h
        · injection h with h'
          injection h' with h1 h2
          subst h1
          exact hs
      · cases h
  | receiveEth sender v =>
      simp only [applyCall] at h
      simp only [receiveEth] at h
      injection h with h'
      injection h' with h1 h2
      subst h1
      exact Nat.add_le_add_right hs v
  | fallbackEth sender v =>
      simp only [applyCall] at h
      simp only [fallbackEth] at h
      injection h with h'
      injection h' with h1 h2
      subst h1
      exact Nat.add_le_add_right hs v

/-- C10: in every state reachable from a deployment by contract
operations (the seven entry points and the `receive`/`fallback` deposits),
`rewardPool` never exceeds the contract balance, so a successful
`claimReward` or `withdrawRewardPool` can pay the amount it deducts from
the pool. -/
theorem reachable_solvency (s : ContractState) (h : Reachable s) :
    s.rewardPool ≤ s.balance ∧
    (REWARD_AMOUNT ≤ s.rewardPool → REWARD_AMOUNT ≤ s.balance) := by
  have hmain : s.rewardPool ≤ s.balance := by
    induction h with
    | init d v => exact Nat.le_refl v
    | step c s1 s1' t hr happ ih => exact applyCall_preserves_solvency c s1 s1' t happ ih
  exact ⟨hmain, fun hr => le_trans hr hmain⟩

/-- C10 witness: the freshly deployed demo state is reachable and solvent. -/
theorem reachable_solvency_witness : s0.rewardPool ≤ s0.balance :=
  (reachable_solvency s0 (Reachable.init 0 300000000000000)).1

end DailyCheckIn
